import Mathlib

/-!
Verification of the smallchat server (src/main.go): a shallow embedding of
its string handling, command dispatch, registry and accept loop, with
theorems settling the specification claims.
-/

namespace SmallChat

/-- Maximum number of allowed clients (constant `MaxClients` in main.go). -/
def MaxClients : Nat := 1000

/-- Welcome message for clients (constant `welcomeMessage` in main.go). -/
def welcomeMessage : String :=
  "Welcome to the chat server! Type '/nick NAME' to set your nickname.\n"

/-- Message for unsupported commands (constant `unknownCmdMsg` in main.go). -/
def unknownCmdMsg : String := "Unsupported command\n"

/-- The Go function `unicode.IsSpace` on the Latin-1 range: tab, newline,
vertical tab, form feed, carriage return, space, next line (U+0085) and
no-break space (U+00A0). The inputs in the claims are ASCII, where this
coincides with Go. -/
def goIsSpace (c : Char) : Bool :=
  c.toNat = 9 || c.toNat = 10 || c.toNat = 11 || c.toNat = 12 ||
  c.toNat = 13 || c.toNat = 32 || c.toNat = 133 || c.toNat = 160

/-- The Go function `strings.TrimSpace`: drop leading and trailing
whitespace. -/
def trimSpace (s : String) : String :=
  String.mk (((s.data.dropWhile goIsSpace).reverse.dropWhile goIsSpace).reverse)

/-- Split a character list at the first space character, if any. -/
def breakOnSpace : List Char → Option (List Char × List Char)
  | [] => none
  | c :: cs =>
    if c = ' ' then some ([], cs)
    else
      match breakOnSpace cs with
      | none => none
      | some (pre, post) => some (c :: pre, post)

/-- The Go call `strings.SplitN(s, " ", 2)`: at most two parts, split at the
first space. -/
def splitN2Space (s : String) : List String :=
  match breakOnSpace s.data with
  | none => [s]
  | some (pre, post) => [String.mk pre, String.mk post]

/-- The Go function `strings.ToLower` restricted to ASCII, which is all the
command tokens use. -/
def goToLower (s : String) : String :=
  String.mk (s.data.map Char.toLower)

/-- The Go call `strings.HasPrefix(s, "/")`. -/
def startsWithSlash (s : String) : Bool :=
  match s.data with
  | [] => false
  | c :: _ => c = '/'

/-- Holds (as a boolean) when the string neither starts nor ends with a
whitespace character. -/
def noEdgeSpaceB (s : String) : Bool :=
  (match s.data.head? with
   | none => true
   | some c => !goIsSpace c) &&
  (match s.data.getLast? with
   | none => true
   | some c => !goIsSpace c)

/-- A connected chat client (struct `Client` in main.go): its id and its
nickname. The connection and reader are modelled by the effect lists in
`CmdResult`. -/
structure Client where
  id : Nat
  nick : String
deriving DecidableEq

/-- Effects of handling one input line: the nickname of the client
afterwards, the messages written directly to the connection of the sender
(`client.Notify(...)` on itself), and the messages handed to
`chat.broadcast`. -/
structure CmdResult where
  nick : String
  direct : List String
  broadcasts : List String
deriving DecidableEq

/-- Function `handleNickCommand` in main.go: sets the nickname from the
second part and broadcasts the rename notice, or reports an error to the
sender only. -/
def handleNickCommand (client : Client) (parts : List String) : CmdResult :=
  if parts.length ≠ 2 then
    ⟨client.nick, ["Usage: /nick <nickname>\n"], []⟩
  else
    let newNick := trimSpace (parts.getD 1 "")
    if newNick = "" then
      ⟨client.nick, ["Nickname cannot be empty\n"], []⟩
    else
      ⟨newNick, [],
        ["User " ++ toString client.id ++ " is now known as " ++ newNick ++ "\n"]⟩

/-- Body of `handleCommand` in main.go after the initial
`msg = strings.TrimSpace(msg)` assignment. -/
def handleCommandTrimmed (client : Client) (msg : String) : CmdResult :=
  if msg = "" then
    ⟨client.nick, [], []⟩
  else if startsWithSlash msg then
    let parts := splitN2Space msg
    let command := goToLower (parts.headD "")
    if command = "/nick" then
      handleNickCommand client parts
    else
      ⟨client.nick, [unknownCmdMsg], []⟩
  else
    let displayMsg :=
      if client.nick = "" then
        "user:" ++ toString client.id ++ "> " ++ msg ++ "\n"
      else
        client.nick ++ "> " ++ msg ++ "\n"
    ⟨client.nick, [], [displayMsg]⟩

/-- Function `handleCommand` in main.go: trim the line, then dispatch. -/
def handleCommand (client : Client) (msg : String) : CmdResult :=
  handleCommandTrimmed client (trimSpace msg)

/-- One `chat.broadcast(message, senderID)` call delivers the message to
every currently registered observer, in order. -/
def broadcastDeliveries (observers : List Nat) (message : String) :
    List (Nat × String) :=
  observers.map (fun o => (o, message))

/-- One `client.Notify(message, senderID)` call (main.go lines 115-121): it
attempts `conn.Write`; on error it only logs. The record is (recipient,
message, write succeeded). The error is never propagated. -/
def NotifyAttempt (writeErr : Bool) (cid : Nat) (message : String) :
    Nat × String × Bool :=
  (cid, message, !writeErr)

/-- The loop body of `chat.broadcast` (main.go lines 97-103): call `Notify`
on every observer in order. `writeErr o` says whether the transport write to
observer `o` fails. -/
def broadcastRun (writeErr : Nat → Bool) (observers : List Nat)
    (message : String) : List (Nat × String × Bool) :=
  observers.map (fun o => NotifyAttempt (writeErr o) o message)

/-- One registered observer as the registry sees it: `token` models the
pointer identity of the `*Client` (its accept sequence number), `id` the
`Client.id` field. -/
structure SrvClient where
  token : Nat
  id : Nat
deriving DecidableEq

/-- Function `generateClientID` in main.go: the id for the next client is
`len(chat.observers) + 1`. -/
def generateClientID (observers : List SrvClient) : Nat :=
  observers.length + 1

/-- Function `addObserver` in main.go: unconditionally append to the list. -/
def addObserver (observers : List SrvClient) (c : SrvClient) :
    List SrvClient :=
  observers ++ [c]

/-- Function `removeObserver` in main.go: remove the first observer that is
pointer-equal to the given one (then break). -/
def removeObserver : List SrvClient → Nat → List SrvClient
  | [], _ => []
  | c :: cs, tok => if c.token = tok then cs else c :: removeObserver cs tok

/-- Outcome of one iteration of the accept loop in `main` for a newly
accepted connection: the observer list afterwards, the id generated for the
client, whether `conn.Close()` was called in this iteration, whether
`go client.listen()` was started, and the bytes written to the new
connection by this iteration (the welcome message is the first write of
`listen`, so nothing is written when `listen` never starts). -/
structure AcceptResult where
  observers : List SrvClient
  clientID : Nat
  connClosed : Bool
  listenStarted : Bool
  connWrites : List String
deriving DecidableEq

/-- One iteration of the accept loop in `main` (lines 232-247): generate the
id, build the client, `addObserver`, then close the connection and skip
`listen` if `len(chat.observers) > MaxClients`, else start `listen`, whose
first action writes `welcomeMessage`. -/
def acceptStep (observers : List SrvClient) (tok : Nat) : AcceptResult :=
  let clientID := generateClientID observers
  let observers2 := addObserver observers ⟨tok, clientID⟩
  if observers2.length > MaxClients then
    ⟨observers2, clientID, true, false, []⟩
  else
    ⟨observers2, clientID, false, true, [welcomeMessage]⟩

/-- A registry state holding exactly `MaxClients` registered observers. -/
def fullState : List SrvClient :=
  (List.range MaxClients).map (fun n => ⟨n, n + 1⟩)

/-! Helper lemmas about whitespace trimming and the accept loop. -/

theorem head?_dropWhile_false (p : Char → Bool) (l : List Char) (c : Char)
    (h : (l.dropWhile p).head? = some c) : p c = false := by
  have hh := List.head?_dropWhile_not p l
  rw [h] at hh
  exact hh

theorem getLast?_dropWhile_ne (p : Char → Bool) (l : List Char)
    (h : l.dropWhile p ≠ []) : (l.dropWhile p).getLast? = l.getLast? := by
  induction l with
  | nil => simp at h
  | cons a l ih =>
    by_cases hp : p a
    · rw [List.dropWhile_cons_of_pos hp] at h ⊢
      have hl : l ≠ [] := by
        intro he
        subst he
        simp [List.dropWhile] at h
      obtain ⟨b, l', rfl⟩ := List.exists_cons_of_ne_nil hl
      rw [ih h, List.getLast?_cons_cons]
    · rw [List.dropWhile_cons_of_neg hp]

theorem dropWhile_append_all (p : Char → Bool) (l m : List Char)
    (h : ∀ c ∈ l, p c = true) :
    (l ++ m).dropWhile p = m.dropWhile p := by
  induction l with
  | nil => simp
  | cons a l ih =>
    rw [List.cons_append, List.dropWhile_cons_of_pos (h a (by simp)),
      ih (fun c hc => h c (by simp [hc]))]

theorem trimSpace_noEdgeSpace (s : String) :
    noEdgeSpaceB (trimSpace s) = true := by
  have hdata : (trimSpace s).data =
      ((s.data.dropWhile goIsSpace).reverse.dropWhile goIsSpace).reverse := rfl
  by_cases hnil : (s.data.dropWhile goIsSpace).reverse.dropWhile goIsSpace = []
  · unfold noEdgeSpaceB
    rw [hdata, hnil]
    rfl
  · unfold noEdgeSpaceB
    rw [hdata, List.head?_reverse, List.getLast?_reverse]
    rw [getLast?_dropWhile_ne _ _ hnil, List.getLast?_reverse]
    rcases hh : (s.data.dropWhile goIsSpace).head? with _ | c
    · exfalso
      apply hnil
      have h0 : s.data.dropWhile goIsSpace = [] := List.head?_eq_none_iff.mp hh
      rw [h0]
      rfl
    · have hc := head?_dropWhile_false goIsSpace s.data c hh
      rcases hh2 :
          ((s.data.dropWhile goIsSpace).reverse.dropWhile goIsSpace).head? with
        _ | d
      · simp [hc]
      · have hd :=
          head?_dropWhile_false goIsSpace (s.data.dropWhile goIsSpace).reverse
            d hh2
        simp [hc, hd]

theorem trimSpace_all_space (s : String)
    (h : ∀ c ∈ s.data, goIsSpace c = true) : trimSpace s = "" := by
  unfold trimSpace
  have h0 : s.data.dropWhile goIsSpace = [] := by
    rw [List.dropWhile_eq_nil_iff]
    intro c hc
    exact h c hc
  rw [h0]
  rfl

theorem trimSpace_append_space (ws body : String)
    (h : ∀ c ∈ ws.data, goIsSpace c = true) :
    trimSpace (ws ++ body) = trimSpace body := by
  unfold trimSpace
  rw [String.data_append, dropWhile_append_all _ _ _ h]

theorem noEdgeSpaceB_head (s : String) (h : noEdgeSpaceB s = true)
    (c : Char) (hc : s.data.head? = some c) : goIsSpace c = false := by
  unfold noEdgeSpaceB at h
  rw [hc] at h
  simp at h
  exact h.1

theorem noEdgeSpaceB_getLast (s : String) (h : noEdgeSpaceB s = true)
    (c : Char) (hc : s.data.getLast? = some c) : goIsSpace c = false := by
  unfold noEdgeSpaceB at h
  rw [hc] at h
  simp at h
  exact h.2

theorem trimSpace_eq_self (s : String)
    (h1 : ∀ c, s.data.head? = some c → goIsSpace c = false)
    (h2 : ∀ c, s.data.getLast? = some c → goIsSpace c = false) :
    trimSpace s = s := by
  unfold trimSpace
  have hd : s.data.dropWhile goIsSpace = s.data := by
    cases hs : s.data with
    | nil => rfl
    | cons a l =>
      rw [List.dropWhile_cons_of_neg]
      simp [h1 a (by rw [hs]; rfl)]
  rw [hd]
  have hd2 : s.data.reverse.dropWhile goIsSpace = s.data.reverse := by
    cases hr : s.data.reverse with
    | nil => rfl
    | cons a t =>
      rw [List.dropWhile_cons_of_neg]
      have hg : s.data.getLast? = some a := by
        rw [← List.head?_reverse, hr]
        rfl
      simp [h2 a hg]
  rw [hd2, List.reverse_reverse]

theorem handleCommandTrimmed_slash (client : Client) (msg : String)
    (hne : msg ≠ "") (hsw : startsWithSlash msg = true) :
    handleCommandTrimmed client msg =
      if goToLower ((splitN2Space msg).headD "") = "/nick" then
        handleNickCommand client (splitN2Space msg)
      else ⟨client.nick, [unknownCmdMsg], []⟩ := by
  unfold handleCommandTrimmed
  rw [if_neg hne, hsw]
  simp

theorem fullState_length : fullState.length = MaxClients := by
  simp [fullState]

/-! The claims. -/

/-- C1: the claim says a register at the configured maximum returns failure
and leaves the membership set unchanged, so the tracked population never
exceeds `MaxClients`. The code violates this: `addObserver` appends
unconditionally, the limit check runs only after the append, and the
over-limit session is never removed, so from a state with exactly
`MaxClients` registered observers one more accepted connection leaves
`MaxClients + 1` observers registered. This theorem evaluates the accept
loop at that failing input. -/
theorem claim1_population_exceeds_max :
    fullState.length = MaxClients ∧
    (acceptStep fullState 1000).observers.length = MaxClients + 1 ∧
    MaxClients < (acceptStep fullState 1000).observers.length ∧
    (acceptStep fullState 1000).connClosed = true ∧
    (acceptStep fullState 1000).observers ≠ fullState := by
  have hcond :
      (addObserver fullState ⟨1000, generateClientID fullState⟩).length >
        MaxClients := by
    simp [addObserver, fullState_length]
  have hstep : acceptStep fullState 1000 =
      ⟨addObserver fullState ⟨1000, generateClientID fullState⟩,
        generateClientID fullState, true, false, []⟩ := by
    simp only [acceptStep]
    rw [if_pos hcond]
  rw [hstep]
  refine ⟨fullState_length, ?_, ?_, rfl, ?_⟩
  · simp [addObserver, fullState_length]
  · simp [addObserver, fullState_length]
  · intro h
    have hl := congrArg List.length h
    simp [addObserver, fullState_length] at hl

/-- C2: the claim says `generateClientID` is strictly monotonically
increasing across successive calls and overlapping sessions hold distinct
identities. The code derives the id from the live population
(`len(observers) + 1`), so the run register-register-deregister-register
produces the id sequence 1, 2, 2, and the second and the fourth session are
simultaneously registered with the same id 2. This theorem evaluates the
code on that run. -/
theorem claim2_identity_reuse :
    generateClientID [] = 1 ∧
    generateClientID (addObserver [] ⟨0, 1⟩) = 2 ∧
    generateClientID
      (removeObserver (addObserver (addObserver [] ⟨0, 1⟩) ⟨1, 2⟩) 0) = 2 ∧
    (addObserver
      (removeObserver (addObserver (addObserver [] ⟨0, 1⟩) ⟨1, 2⟩) 0)
      ⟨2, 2⟩).map SrvClient.id = [2, 2] := by
  decide

/-- C3: a registered session with display name "X" sending the plain line
"hi" broadcasts exactly "X> hi\n", delivered to every registered session
including the sender; an anonymous session with identity 7 sending "hi"
broadcasts exactly "user:7> hi\n". -/
theorem claim3_message_format (id : Nat) (observers : List Nat)
    (hmem : id ∈ observers) :
    (handleCommand ⟨id, "X"⟩ "hi").broadcasts = ["X> hi\n"] ∧
    (handleCommand ⟨7, ""⟩ "hi").broadcasts = ["user:7> hi\n"] ∧
    broadcastDeliveries observers "X> hi\n" =
      observers.map (fun o => (o, "X> hi\n")) ∧
    (id, "X> hi\n") ∈ broadcastDeliveries observers "X> hi\n" := by
  refine ⟨rfl, by decide, rfl, ?_⟩
  exact List.mem_map_of_mem _ hmem

/-- Witness for C3 at identity 7 registered among [3, 7]. -/
theorem claim3_message_format_witness :
    (7 : Nat) ∈ [3, 7] ∧
    ((handleCommand ⟨7, "X"⟩ "hi").broadcasts = ["X> hi\n"] ∧
      (handleCommand ⟨7, ""⟩ "hi").broadcasts = ["user:7> hi\n"] ∧
      broadcastDeliveries [3, 7] "X> hi\n" =
        [3, 7].map (fun o => (o, "X> hi\n")) ∧
      ((7 : Nat), "X> hi\n") ∈ broadcastDeliveries [3, 7] "X> hi\n") :=
  ⟨by decide, claim3_message_format 7 [3, 7] (by decide)⟩

/-- C4, counterexample: the claim says the rename notice reads
"user <identity> is now known as <name>". Renaming session 7 to "X"
broadcasts exactly "User 7 is now known as X\n" — capital U and a trailing
newline — which differs from the claimed text with or without the
newline. -/
theorem claim4_notice_counterexample :
    (handleCommand ⟨7, ""⟩ "/nick X").nick = "X" ∧
    (handleCommand ⟨7, ""⟩ "/nick X").broadcasts =
      ["User 7 is now known as X\n"] ∧
    "User 7 is now known as X\n" ≠ "user 7 is now known as X" ∧
    "User 7 is now known as X\n" ≠ "user 7 is now known as X\n" := by
  decide

/-- C4, amended: for every session with identity I receiving /nick with one
non-empty trimmed argument N, the display name is set to N and the notice
"User I is now known as N" followed by a newline (capital U, unlike the
claimed lowercase "user") is broadcast to all sessions including the
sender. -/
theorem claim4_rename_notice (id : Nat) (nick0 N : String)
    (observers : List Nat) (hmem : id ∈ observers)
    (htrim : trimSpace N = N) (hne : N ≠ "") :
    (handleCommand ⟨id, nick0⟩ ("/nick " ++ N)).nick = N ∧
    (handleCommand ⟨id, nick0⟩ ("/nick " ++ N)).broadcasts =
      ["User " ++ toString id ++ " is now known as " ++ N ++ "\n"] ∧
    (handleCommand ⟨id, nick0⟩ ("/nick " ++ N)).direct = [] ∧
    (id, "User " ++ toString id ++ " is now known as " ++ N ++ "\n") ∈
      broadcastDeliveries observers
        ("User " ++ toString id ++ " is now known as " ++ N ++ "\n") := by
  have hnes : noEdgeSpaceB N = true := by
    rw [← htrim]
    exact trimSpace_noEdgeSpace N
  have hNd : N.data ≠ [] := by
    intro h0
    apply hne
    obtain ⟨l⟩ := N
    cases h0
    rfl
  have hdata : ("/nick " ++ N).data =
      '/' :: 'n' :: 'i' :: 'c' :: 'k' :: ' ' :: N.data := rfl
  have htrimmed : trimSpace ("/nick " ++ N) = "/nick " ++ N := by
    apply trimSpace_eq_self
    · intro c hc
      rw [hdata, List.head?_cons] at hc
      cases hc
      decide
    · intro c hc
      have hdata2 : ("/nick " ++ N).data = "/nick ".data ++ N.data := rfl
      rw [hdata2, List.getLast?_append_of_ne_nil "/nick ".data hNd] at hc
      exact noEdgeSpaceB_getLast N hnes c hc
  have hne2 : ("/nick " ++ N) ≠ "" := by
    intro h0
    have h1 := congrArg String.data h0
    rw [hdata] at h1
    simp at h1
  have hsw : startsWithSlash ("/nick " ++ N) = true := rfl
  have hsplit : splitN2Space ("/nick " ++ N) = ["/nick", N] := rfl
  have hnick : handleNickCommand ⟨id, nick0⟩ ["/nick", N] =
      ⟨N, [],
        ["User " ++ toString id ++ " is now known as " ++ N ++ "\n"]⟩ := by
    unfold handleNickCommand
    rw [if_neg (by simp)]
    have hgetd : trimSpace (["/nick", N].getD 1 "") = N := by
      rw [(rfl : ["/nick", N].getD 1 "" = N)]
      exact htrim
    simp only [hgetd]
    rw [if_neg hne]
  have hstep : handleCommand ⟨id, nick0⟩ ("/nick " ++ N) =
      ⟨N, [],
        ["User " ++ toString id ++ " is now known as " ++ N ++ "\n"]⟩ := by
    unfold handleCommand
    rw [htrimmed, handleCommandTrimmed_slash _ _ hne2 hsw, hsplit]
    have hcmd : goToLower (["/nick", N].headD "") = "/nick" := rfl
    rw [if_pos hcmd]
    exact hnick
  rw [hstep]
  exact ⟨rfl, rfl, rfl, List.mem_map_of_mem _ hmem⟩

/-- Witness for C4 at identity 7, previous name empty, new name "Ann",
registered among [7, 9]. -/
theorem claim4_rename_notice_witness :
    ((7 : Nat) ∈ [7, 9] ∧ trimSpace "Ann" = "Ann" ∧ "Ann" ≠ "") ∧
    ((handleCommand ⟨7, ""⟩ ("/nick " ++ "Ann")).nick = "Ann" ∧
      (handleCommand ⟨7, ""⟩ ("/nick " ++ "Ann")).broadcasts =
        ["User " ++ toString (7 : Nat) ++ " is now known as " ++ "Ann" ++
          "\n"] ∧
      (handleCommand ⟨7, ""⟩ ("/nick " ++ "Ann")).direct = [] ∧
      ((7 : Nat),
        "User " ++ toString (7 : Nat) ++ " is now known as " ++ "Ann" ++
          "\n") ∈
        broadcastDeliveries [7, 9]
          ("User " ++ toString (7 : Nat) ++ " is now known as " ++ "Ann" ++
            "\n")) :=
  ⟨⟨by decide, by decide, by decide⟩,
    claim4_rename_notice 7 "" "Ann" [7, 9] (by decide) (by decide)
      (by decide)⟩

/-- C5: receiving /nick with a missing argument, or an argument that trims
to empty, delivers an error notice to the sender only, broadcasts nothing,
and leaves the display name unchanged; in particular the bare line "/nick"
yields the usage error to the sender only. -/
theorem claim5_nick_missing_arg (id : Nat) (nick0 : String)
    (parts : List String)
    (h : parts.length ≠ 2 ∨ trimSpace (parts.getD 1 "") = "") :
    (handleNickCommand ⟨id, nick0⟩ parts).nick = nick0 ∧
    (handleNickCommand ⟨id, nick0⟩ parts).broadcasts = [] ∧
    ((handleNickCommand ⟨id, nick0⟩ parts).direct =
        ["Usage: /nick <nickname>\n"] ∨
      (handleNickCommand ⟨id, nick0⟩ parts).direct =
        ["Nickname cannot be empty\n"]) ∧
    handleCommand ⟨id, nick0⟩ "/nick" =
      ⟨nick0, ["Usage: /nick <nickname>\n"], []⟩ := by
  have hres : handleNickCommand ⟨id, nick0⟩ parts =
      ⟨nick0, ["Usage: /nick <nickname>\n"], []⟩ ∨
      handleNickCommand ⟨id, nick0⟩ parts =
      ⟨nick0, ["Nickname cannot be empty\n"], []⟩ := by
    by_cases h2 : parts.length ≠ 2
    · left
      simp [handleNickCommand, h2]
    · rcases h with h | h
      · exact absurd h h2
      · right
        have h3 : trimSpace (parts[1]?.getD "") = "" := by
          rw [← List.getD_eq_getElem?_getD]
          exact h
        simp [handleNickCommand, h2, h3]
  rcases hres with hres | hres <;> rw [hres]
  · exact ⟨rfl, rfl, Or.inl rfl, rfl⟩
  · exact ⟨rfl, rfl, Or.inr rfl, rfl⟩

/-- Witness for C5 at identity 7, name "Bob", command parts ["/nick"]. -/
theorem claim5_nick_missing_arg_witness :
    ((["/nick"] : List String).length ≠ 2 ∨
      trimSpace ((["/nick"] : List String).getD 1 "") = "") ∧
    ((handleNickCommand ⟨7, "Bob"⟩ ["/nick"]).nick = "Bob" ∧
      (handleNickCommand ⟨7, "Bob"⟩ ["/nick"]).broadcasts = [] ∧
      ((handleNickCommand ⟨7, "Bob"⟩ ["/nick"]).direct =
          ["Usage: /nick <nickname>\n"] ∨
        (handleNickCommand ⟨7, "Bob"⟩ ["/nick"]).direct =
          ["Nickname cannot be empty\n"]) ∧
      handleCommand ⟨7, "Bob"⟩ "/nick" =
        ⟨"Bob", ["Usage: /nick <nickname>\n"], []⟩) :=
  ⟨Or.inl (by decide),
    claim5_nick_missing_arg 7 "Bob" ["/nick"] (Or.inl (by decide))⟩

/-- C6: a trimmed line starting with "/" whose lowercased first token is not
"/nick" yields the fixed unsupported-command notice to the sender only, no
broadcast and no name change; and "/NICK", matched case-insensitively, is
dispatched exactly like "/nick". -/
theorem claim6_unknown_command (id : Nat) (nick0 : String) (msg : String)
    (hslash : startsWithSlash (trimSpace msg) = true)
    (hcmd : goToLower ((splitN2Space (trimSpace msg)).headD "") ≠ "/nick") :
    handleCommand ⟨id, nick0⟩ msg = ⟨nick0, [unknownCmdMsg], []⟩ ∧
    handleCommand ⟨id, nick0⟩ "/NICK X" =
      handleCommand ⟨id, nick0⟩ "/nick X" := by
  constructor
  · have hne : trimSpace msg ≠ "" := by
      intro h0
      rw [h0] at hslash
      exact Bool.false_ne_true hslash
    unfold handleCommand
    rw [handleCommandTrimmed_slash _ _ hne hslash, if_neg hcmd]
  · rfl

/-- Witness for C6 at identity 7, name "Bob", line "/frobnicate". -/
theorem claim6_unknown_command_witness :
    (startsWithSlash (trimSpace "/frobnicate") = true ∧
      goToLower ((splitN2Space (trimSpace "/frobnicate")).headD "") ≠
        "/nick") ∧
    (handleCommand ⟨7, "Bob"⟩ "/frobnicate" =
        ⟨"Bob", [unknownCmdMsg], []⟩ ∧
      handleCommand ⟨7, "Bob"⟩ "/NICK X" =
        handleCommand ⟨7, "Bob"⟩ "/nick X") :=
  ⟨⟨by decide, by decide⟩,
    claim6_unknown_command 7 "Bob" "/frobnicate" (by decide) (by decide)⟩

/-- C7: a write error while notifying one recipient does not abort the
broadcast: whatever the pattern of write failures, `Notify` is invoked for
every registered observer in order, and the broadcast as a whole is a total
operation that never fails. -/
theorem claim7_broadcast_resilient (writeErr : Nat → Bool)
    (observers : List Nat) (message : String) :
    (broadcastRun writeErr observers message).map (fun a => a.1) =
      observers ∧
    (broadcastRun writeErr observers message).length = observers.length ∧
    ∀ o ∈ observers,
      (o, message, !writeErr o) ∈ broadcastRun writeErr observers message := by
  refine ⟨?_, ?_, ?_⟩
  · simp only [broadcastRun, NotifyAttempt, List.map_map]
    exact List.map_id observers
  · simp [broadcastRun]
  · intro o ho
    exact List.mem_map_of_mem _ ho

/-- C8: when the registered population equals `MaxClients`, the next
accepted connection is closed, its read loop `listen` is never started, and
nothing — in particular not the welcome text — is written to that
connection. -/
theorem claim8_reject_at_capacity (observers : List SrvClient) (tok : Nat)
    (h : observers.length = MaxClients) :
    (acceptStep observers tok).connClosed = true ∧
    (acceptStep observers tok).listenStarted = false ∧
    (acceptStep observers tok).connWrites = [] ∧
    welcomeMessage ∉ (acceptStep observers tok).connWrites := by
  have hcond :
      (addObserver observers ⟨tok, generateClientID observers⟩).length >
        MaxClients := by
    simp [addObserver, h]
  have hstep : acceptStep observers tok =
      ⟨addObserver observers ⟨tok, generateClientID observers⟩,
        generateClientID observers, true, false, []⟩ := by
    simp only [acceptStep]
    rw [if_pos hcond]
  rw [hstep]
  exact ⟨rfl, rfl, rfl, by simp⟩

/-- Witness for C8 at a registry state with exactly `MaxClients`
observers. -/
theorem claim8_reject_at_capacity_witness :
    fullState.length = MaxClients ∧
    ((acceptStep fullState 1001).connClosed = true ∧
      (acceptStep fullState 1001).listenStarted = false ∧
      (acceptStep fullState 1001).connWrites = [] ∧
      welcomeMessage ∉ (acceptStep fullState 1001).connWrites) :=
  ⟨fullState_length,
    claim8_reject_at_capacity fullState 1001 fullState_length⟩

/-- C9: every line is trimmed before interpretation: a whitespace-only line
is handled like an empty line (no output, no name change), leading
whitespace does not change how a line — in particular a command line — is
handled, the broadcast text of a chat message is built from the trimmed
line, and the trimmed line carries no leading or trailing whitespace. -/
theorem claim9_trim_before_interpret (client : Client)
    (ws body msg : String) (hws : ∀ c ∈ ws.data, goIsSpace c = true) :
    handleCommand client ws = ⟨client.nick, [], []⟩ ∧
    handleCommand client (ws ++ body) = handleCommand client body ∧
    (startsWithSlash (trimSpace msg) = false → trimSpace msg ≠ "" →
      (handleCommand client msg).broadcasts =
        [if client.nick = "" then
            "user:" ++ toString client.id ++ "> " ++ trimSpace msg ++ "\n"
          else client.nick ++ "> " ++ trimSpace msg ++ "\n"]) ∧
    noEdgeSpaceB (trimSpace msg) = true := by
  refine ⟨?_, ?_, ?_, trimSpace_noEdgeSpace msg⟩
  · unfold handleCommand
    rw [trimSpace_all_space ws hws]
    rfl
  · unfold handleCommand
    rw [trimSpace_append_space ws body hws]
  · intro hs hne
    unfold handleCommand handleCommandTrimmed
    rw [if_neg hne, hs]
    simp

/-- Witness for C9 at client 7 with no name, whitespace " ", command body
"/nick Bob" and chat line "  hi  ". -/
theorem claim9_trim_before_interpret_witness :
    (∀ c ∈ (" " : String).data, goIsSpace c = true) ∧
    (handleCommand ⟨7, ""⟩ " " = ⟨(⟨7, ""⟩ : Client).nick, [], []⟩ ∧
      handleCommand ⟨7, ""⟩ (" " ++ "/nick Bob") =
        handleCommand ⟨7, ""⟩ "/nick Bob" ∧
      (startsWithSlash (trimSpace "  hi  ") = false →
        trimSpace "  hi  " ≠ "" →
        (handleCommand ⟨7, ""⟩ "  hi  ").broadcasts =
          [if (⟨7, ""⟩ : Client).nick = "" then
              "user:" ++ toString (⟨7, ""⟩ : Client).id ++ "> " ++
                trimSpace "  hi  " ++ "\n"
            else
              (⟨7, ""⟩ : Client).nick ++ "> " ++ trimSpace "  hi  " ++
                "\n"]) ∧
      noEdgeSpaceB (trimSpace "  hi  ") = true) :=
  ⟨by decide,
    claim9_trim_before_interpret ⟨7, ""⟩ " " "/nick Bob" "  hi  "
      (by decide)⟩

/-- C10: the /nick argument is everything after the first space of the line
(split into at most two parts), so "/nick a b" sets the display name to
"a b" — with its internal space — and broadcasts the rename notice. -/
theorem claim10_nick_with_spaces (id : Nat) (nick0 : String) :
    splitN2Space "/nick a b" = ["/nick", "a b"] ∧
    (handleCommand ⟨id, nick0⟩ "/nick a b").nick = "a b" ∧
    (handleCommand ⟨id, nick0⟩ "/nick a b").broadcasts =
      ["User " ++ toString id ++ " is now known as " ++ "a b" ++ "\n"] ∧
    (handleCommand ⟨id, nick0⟩ "/nick a b").direct = [] := by
  refine ⟨rfl, rfl, rfl, rfl⟩

end SmallChat
